import Mathlib

/-!
Verification of the Sentinel AI monitoring platform against its design
specification.  The repository ships the database schema, the frontend API
client and dashboard components, and integration tests; the backend query,
aggregation and reconciliation services are exercised only through tests, so
those components are modelled here from the specification text, while the
schema constraints, the dashboard average computation and the frontend
request helper are translated directly from the sources.
-/

namespace SentinelAI

/-! ## Live View Reconciler (spec section 4.3)

Modelled from the spec: the Live View Reconciler is absent from the sources
(only the real-time integration tests exercise it).  A per-agent snapshot
maps field names to timestamped values; an incremental UpdateEvent carries an
event timestamp and a sparse field list, merged with field-level
last-write-wins: an update overwrites a field only if its timestamp is
greater than or equal to the field stored timestamp. -/

/-- Modelled from the spec: an incremental real-time update event
(metric_update payload) for one agent with one event timestamp and a sparse
list of field values. -/
structure UpdateEvent where
  agentId : String
  ts : Nat
  fields : List (String × Int)
deriving Repr, DecidableEq

/-- Modelled from the spec: the per-agent materialized snapshot, a field map
where each field carries the timestamp of the update that last wrote it. -/
abbrev Snapshot := List (String × Nat × Int)

/-- Value and stored timestamp of a field in a snapshot. -/
def lookupField : Snapshot → String → Option (Nat × Int)
  | [], _ => none
  | (k, t, v) :: rest, q => if q = k then some (t, v) else lookupField rest q

/-- Modelled from the spec: merge a single timestamped field value into a
snapshot with field-level last-write-wins; the update overwrites only if its
timestamp is greater than or equal to the field current timestamp, and a
field not present yet is established. -/
def applyField (ts : Nat) (k : String) (v : Int) : Snapshot → Snapshot
  | [] => [(k, ts, v)]
  | (k0, t0, v0) :: rest =>
    if k = k0 then
      if t0 ≤ ts then (k0, ts, v) :: rest else (k0, t0, v0) :: rest
    else
      (k0, t0, v0) :: applyField ts k v rest

/-- Merge a list of field bindings, all stamped with one event timestamp,
into a snapshot in order. -/
def applyFields (ts : Nat) : List (String × Int) → Snapshot → Snapshot
  | [], s => s
  | (k, v) :: rest, s => applyFields ts rest (applyField ts k v s)

/-- Modelled from the spec: apply one UpdateEvent to an agent snapshot. -/
def applyEvent (s : Snapshot) (e : UpdateEvent) : Snapshot :=
  applyFields e.ts e.fields s

/-- Apply a stream of UpdateEvents in arrival order. -/
def applyEvents (s : Snapshot) : List UpdateEvent → Snapshot
  | [] => s
  | e :: rest => applyEvents (applyEvent s e) rest

/-- The last value bound to a key in an event field list (later bindings for
the same key shadow earlier ones, as the merge applies them in order). -/
def lastBinding : List (String × Int) → String → Option Int
  | [], _ => none
  | (k, v) :: rest, q =>
    match lastBinding rest q with
    | some w => some w
    | none => if q = k then some v else none

/-- Pointwise effect of merging a single timestamped value onto the stored
state of one field. -/
def mergeField (ts : Nat) (v : Int) : Option (Nat × Int) → Option (Nat × Int)
  | none => some (ts, v)
  | some (t0, v0) => if t0 ≤ ts then some (ts, v) else some (t0, v0)

theorem lookupField_applyField (ts : Nat) (k : String) (v : Int) (s : Snapshot) (q : String) :
    lookupField (applyField ts k v s) q =
      if q = k then mergeField ts v (lookupField s k) else lookupField s q := by
  induction s with
  | nil =>
    by_cases h : q = k <;> simp [applyField, lookupField, mergeField, h]
  | cons hd tl ih =>
    obtain ⟨k0, t0, v0⟩ := hd
    by_cases hk : k = k0
    · subst hk
      by_cases ht : t0 ≤ ts <;> by_cases hq : q = k <;>
        simp [applyField, lookupField, mergeField, ht, hq]
    · by_cases hq : q = k0
      · subst hq
        simp [applyField, lookupField, mergeField, hk, Ne.symm hk]
      · simp [applyField, lookupField, hk, hq, ih]

theorem mergeField_absorb (t T : Nat) (v w : Int) (x : Option (Nat × Int)) (h : t ≤ T) :
    mergeField T w (mergeField t v x) = mergeField T w x := by
  match x with
  | none => simp [mergeField, h]
  | some (t0, v0) =>
    by_cases h0 : t0 ≤ t
    · simp [mergeField, h0, h, le_trans h0 h]
    · simp [mergeField, h0]

theorem lookupField_applyFields (ts : Nat) (fs : List (String × Int)) (s : Snapshot) (q : String) :
    lookupField (applyFields ts fs s) q =
      match lastBinding fs q with
      | none => lookupField s q
      | some v => mergeField ts v (lookupField s q) := by
  induction fs generalizing s with
  | nil => simp [applyFields, lastBinding]
  | cons hd rest ih =>
    obtain ⟨k, v⟩ := hd
    rw [applyFields, ih]
    cases hrest : lastBinding rest q with
    | some w =>
      simp only [lastBinding, hrest]
      rw [lookupField_applyField]
      by_cases hq : q = k
      · subst hq
        simp [mergeField_absorb ts ts v w _ (le_refl ts)]
      · simp [hq]
    | none =>
      simp only [lastBinding, hrest]
      rw [lookupField_applyField]
      by_cases hq : q = k
      · subst hq
        simp
      · simp [hq]

theorem lookupField_applyEvent (s : Snapshot) (e : UpdateEvent) (q : String) :
    lookupField (applyEvent s e) q =
      match lastBinding e.fields q with
      | none => lookupField s q
      | some v => mergeField e.ts v (lookupField s q) :=
  lookupField_applyFields e.ts e.fields s q

theorem mergeField_lookup_applyEvents (es : List UpdateEvent) (s : Snapshot) (q : String)
    (T : Nat) (w : Int) (h : ∀ e ∈ es, e.ts ≤ T) :
    mergeField T w (lookupField (applyEvents s es) q) = mergeField T w (lookupField s q) := by
  induction es generalizing s with
  | nil => rfl
  | cons e rest ih =>
    rw [applyEvents, ih _ (fun x hx => h x (List.mem_cons_of_mem e hx))]
    rw [lookupField_applyEvent]
    cases hb : lastBinding e.fields q with
    | none => rfl
    | some v => exact mergeField_absorb e.ts T v w _ (h e (List.mem_cons_self e rest))

theorem lookupField_applyEvents_not_bound (es : List UpdateEvent) (s : Snapshot) (q : String)
    (h : ∀ e ∈ es, lastBinding e.fields q = none) :
    lookupField (applyEvents s es) q = lookupField s q := by
  induction es generalizing s with
  | nil => rfl
  | cons e rest ih =>
    rw [applyEvents, ih _ (fun x hx => h x (List.mem_cons_of_mem e hx))]
    rw [lookupField_applyEvent, h e (List.mem_cons_self e rest)]

theorem lastBinding_mem (fs : List (String × Int)) (q : String) (v : Int)
    (h : lastBinding fs q = some v) : (q, v) ∈ fs := by
  induction fs with
  | nil => simp [lastBinding] at h
  | cons hd rest ih =>
    obtain ⟨k, w⟩ := hd
    rw [lastBinding] at h
    cases hrest : lastBinding rest q with
    | some u =>
      rw [hrest] at h
      exact List.mem_cons_of_mem _ (ih (hrest.trans (by injection h with h; rw [h])))
    | none =>
      rw [hrest] at h
      by_cases hq : q = k
      · simp [hq] at h
        subst hq
        subst h
        exact List.mem_cons_self _ _
      · simp [hq] at h

theorem applyField_self (ts : Nat) (k : String) (v : Int) (t : Snapshot)
    (h : lookupField t k = some (ts, v)) : applyField ts k v t = t := by
  induction t with
  | nil => simp [lookupField] at h
  | cons hd rest ih =>
    obtain ⟨k0, t0, v0⟩ := hd
    by_cases hk : k = k0
    · subst hk
      rw [lookupField, if_pos rfl] at h
      injection h with h
      obtain ⟨h1, h2⟩ := Prod.mk.injEq .. ▸ h
      rw [applyField, if_pos rfl, ← h1, ← h2]
      simp
    · rw [lookupField, if_neg hk] at h
      rw [applyField, if_neg hk, ih h]

theorem applyField_stale (ts : Nat) (k : String) (v : Int) (t : Snapshot) (t0 : Nat) (v0 : Int)
    (h : lookupField t k = some (t0, v0)) (hlt : ¬ t0 ≤ ts) : applyField ts k v t = t := by
  induction t with
  | nil => simp [lookupField] at h
  | cons hd rest ih =>
    obtain ⟨k1, t1, v1⟩ := hd
    by_cases hk : k = k1
    · subst hk
      rw [lookupField, if_pos rfl] at h
      injection h with h
      obtain ⟨h1, h2⟩ := Prod.mk.injEq .. ▸ h
      rw [applyField, if_pos rfl, if_neg (h1 ▸ hlt)]
    · rw [lookupField, if_neg hk] at h
      rw [applyField, if_neg hk, ih h]

theorem applyFields_fixpoint (ts : Nat) (fs : List (String × Int)) (t : Snapshot)
    (h : ∀ kv ∈ fs, applyField ts kv.1 kv.2 t = t) : applyFields ts fs t = t := by
  induction fs with
  | nil => rfl
  | cons kv rest ih =>
    rw [applyFields, h kv (List.mem_cons_self kv rest)]
    exact ih (fun x hx => h x (List.mem_cons_of_mem kv hx))

theorem lastBinding_of_not_key (fs : List (String × Int)) (q : String)
    (h : q ∉ fs.map Prod.fst) : lastBinding fs q = none := by
  induction fs with
  | nil => rfl
  | cons kv rest ih =>
    obtain ⟨k, v⟩ := kv
    simp only [List.map_cons, List.mem_cons] at h
    push_neg at h
    rw [lastBinding, ih h.2, if_neg h.1]

theorem lastBinding_of_nodup (fs : List (String × Int)) (q : String) (v : Int)
    (hnd : (fs.map Prod.fst).Nodup) (hm : (q, v) ∈ fs) : lastBinding fs q = some v := by
  induction fs with
  | nil => simp at hm
  | cons kv rest ih =>
    obtain ⟨k, w⟩ := kv
    simp only [List.map_cons, List.nodup_cons] at hnd
    rcases List.mem_cons.mp hm with hhd | htl
    · injection hhd with h1 h2
      subst h1
      subst h2
      rw [lastBinding, lastBinding_of_not_key rest q hnd.1, if_pos rfl]
    · rw [lastBinding, ih hnd.2 htl]

theorem applyEvent_idem_of_nodup (s : Snapshot) (e : UpdateEvent)
    (h : (e.fields.map Prod.fst).Nodup) :
    applyEvent (applyEvent s e) e = applyEvent s e := by
  show applyFields e.ts e.fields (applyEvent s e) = applyEvent s e
  apply applyFields_fixpoint
  intro kv hkv
  obtain ⟨k, v⟩ := kv
  have hb : lastBinding e.fields k = some v := lastBinding_of_nodup e.fields k v h hkv
  have hl : lookupField (applyEvent s e) k = mergeField e.ts v (lookupField s k) := by
    have hm := lookupField_applyEvent s e k
    rw [hb] at hm
    exact hm
  cases hx : lookupField s k with
  | none =>
    rw [hx] at hl
    exact applyField_self _ _ _ _ hl
  | some p =>
    obtain ⟨t0, v0⟩ := p
    rw [hx] at hl
    by_cases ht : t0 ≤ e.ts
    · rw [show mergeField e.ts v (some (t0, v0)) = some (e.ts, v) by simp [mergeField, ht]] at hl
      exact applyField_self _ _ _ _ hl
    · rw [show mergeField e.ts v (some (t0, v0)) = some (t0, v0) by simp [mergeField, ht]] at hl
      exact applyField_stale _ _ _ _ t0 v0 hl ht

/-- C1: the reconciler merge is field-level last-write-wins by event
timestamp.  First conjunct: if the field currently carries a timestamp at
most T2 (the claim's own guard: an update overwrites only when its timestamp
is at least the field's current one), then applying an event stamped T2 and
afterwards an event stamped T1 < T2 for that field leaves the field at the
T2 value.  Second conjunct: an event older than the field's current
timestamp never overwrites the field. -/
theorem reconciler_field_lww (s : Snapshot) (q : String) :
    (∀ (e2 e1 : UpdateEvent) (v1 v2 : Int),
        lastBinding e2.fields q = some v2 →
        lastBinding e1.fields q = some v1 →
        e1.ts < e2.ts →
        (∀ t0 v0, lookupField s q = some (t0, v0) → t0 ≤ e2.ts) →
        lookupField (applyEvent (applyEvent s e2) e1) q = some (e2.ts, v2))
    ∧ (∀ (e : UpdateEvent) (t0 : Nat) (v0 : Int),
        lookupField s q = some (t0, v0) →
        e.ts < t0 →
        lookupField (applyEvent s e) q = some (t0, v0)) := by
  constructor
  · intro e2 e1 v1 v2 h2 h1 hlt hcur
    have hA : lookupField (applyEvent s e2) q = some (e2.ts, v2) := by
      rw [lookupField_applyEvent]
      cases hx : lookupField s q with
      | none => simp [h2, mergeField]
      | some p =>
        obtain ⟨t0, v0⟩ := p
        have hle := hcur t0 v0 hx
        simp [h2, mergeField, hle]
    rw [lookupField_applyEvent, h1, hA]
    have hnle : ¬ e2.ts ≤ e1.ts := not_le.mpr hlt
    simp [mergeField, hnle]
  · intro e t0 v0 hx hlt
    rw [lookupField_applyEvent]
    cases hb : lastBinding e.fields q with
    | none => exact hx
    | some v =>
      have hnle : ¬ t0 ≤ e.ts := not_le.mpr hlt
      rw [hx]
      simp [mergeField, hnle]

/-- Witness for C1 at concrete events: a T2 = 5 update followed by a stale
T1 = 3 update leaves the field at the T2 value, and an event older than the
stored field timestamp does not regress it. -/
theorem reconciler_field_lww_witness :
    lookupField
        (applyEvent
          (applyEvent ([] : Snapshot) (UpdateEvent.mk "agent-1" 5 [("latency_ms", 250)]))
          (UpdateEvent.mk "agent-1" 3 [("latency_ms", 180)])) "latency_ms"
      = some (5, 250)
    ∧ lookupField
        (applyEvent [("latency_ms", 7, 300)] (UpdateEvent.mk "agent-1" 3 [("latency_ms", 180)]))
        "latency_ms"
      = some (7, 300) :=
  ⟨(reconciler_field_lww [] "latency_ms").1
      (UpdateEvent.mk "agent-1" 5 [("latency_ms", 250)])
      (UpdateEvent.mk "agent-1" 3 [("latency_ms", 180)])
      180 250 (by decide) (by decide) (by decide)
      (by intro t0 v0 h; simp [lookupField] at h),
    (reconciler_field_lww [("latency_ms", 7, 300)] "latency_ms").2
      (UpdateEvent.mk "agent-1" 3 [("latency_ms", 180)]) 7 300 (by decide) (by decide)⟩

/-- C3: duplicate at-least-once delivery is idempotent.  Applying the same
UpdateEvent twice leaves every field of the snapshot exactly as after the
first application; when the event's field keys are distinct (a
MetricRecord-shaped payload lists each field once), the snapshot is
literally identical. -/
theorem reconciler_duplicate_delivery_idempotent (s : Snapshot) (e : UpdateEvent) :
    (∀ q, lookupField (applyEvent (applyEvent s e) e) q = lookupField (applyEvent s e) q)
    ∧ ((e.fields.map Prod.fst).Nodup → applyEvent (applyEvent s e) e = applyEvent s e) := by
  constructor
  · intro q
    rw [lookupField_applyEvent (applyEvent s e) e q]
    cases hb : lastBinding e.fields q with
    | none => rfl
    | some v =>
      rw [lookupField_applyEvent s e q, hb]
      exact mergeField_absorb e.ts e.ts v v _ (le_refl e.ts)
  · exact applyEvent_idem_of_nodup s e

/-- Witness for C3: a concrete duplicate metric_update applied twice leaves
the snapshot literally unchanged after the first application. -/
theorem reconciler_duplicate_delivery_idempotent_witness :
    applyEvent
        (applyEvent [("latency_ms", 1, 100)]
          (UpdateEvent.mk "agent-1" 2 [("latency_ms", 250), ("cpu_usage_percent", 75)]))
        (UpdateEvent.mk "agent-1" 2 [("latency_ms", 250), ("cpu_usage_percent", 75)])
      = applyEvent [("latency_ms", 1, 100)]
          (UpdateEvent.mk "agent-1" 2 [("latency_ms", 250), ("cpu_usage_percent", 75)]) :=
  (reconciler_duplicate_delivery_idempotent [("latency_ms", 1, 100)]
      (UpdateEvent.mk "agent-1" 2 [("latency_ms", 250), ("cpu_usage_percent", 75)])).2
    (by decide)

/-- Burst of ten events mirroring the rapid-update integration test, except
that the first event sets a field the final event does not set. -/
def burstDemo : List UpdateEvent :=
  [UpdateEvent.mk "performance-agent" 1 [("cpu_usage_percent", 35)],
   UpdateEvent.mk "performance-agent" 2 [("latency_ms", 200)],
   UpdateEvent.mk "performance-agent" 3 [("latency_ms", 250)],
   UpdateEvent.mk "performance-agent" 4 [("latency_ms", 300)],
   UpdateEvent.mk "performance-agent" 5 [("latency_ms", 350)],
   UpdateEvent.mk "performance-agent" 6 [("latency_ms", 400)],
   UpdateEvent.mk "performance-agent" 7 [("latency_ms", 450)],
   UpdateEvent.mk "performance-agent" 8 [("latency_ms", 500)],
   UpdateEvent.mk "performance-agent" 9 [("latency_ms", 550)],
   UpdateEvent.mk "performance-agent" 10 [("latency_ms", 600)]]

/-- The tenth and final event of the demonstration burst. -/
def burstDemoLast : UpdateEvent := UpdateEvent.mk "performance-agent" 10 [("latency_ms", 600)]

/-- Counterexample to C2 as stated: for this burst of 10 UpdateEvents for
one agent applied in arrival order, the reconciled snapshot differs from the
snapshot obtained by applying only the 10th event directly, because the
first event set cpu_usage_percent and the 10th did not. -/
theorem burst_counterexample :
    burstDemo.length = 10
    ∧ burstDemo.getLast? = some burstDemoLast
    ∧ lookupField (applyEvents [("latency_ms", 0, 100)] burstDemo) "cpu_usage_percent"
        ≠ lookupField (applyEvent [("latency_ms", 0, 100)] burstDemoLast) "cpu_usage_percent" := by
  decide

/-- C2 amended: a burst of 10 UpdateEvents for one agent applied in arrival
order converges to the result of applying only the 10th event directly to
the pre-burst snapshot, provided no earlier event carries a timestamp newer
than the 10th event's and the 10th event sets every field that any earlier
event of the burst sets (both hold in the cited rapid-update test). -/
theorem burst_converges_to_last_event (s : Snapshot) (front : List UpdateEvent) (e : UpdateEvent)
    (_hlen : front.length = 9)
    (hts : ∀ e2 ∈ front, e2.ts ≤ e.ts)
    (hkeys : ∀ e2 ∈ front, ∀ kv ∈ e2.fields, (lastBinding e.fields kv.1).isSome = true)
    (q : String) :
    lookupField (applyEvents s (front ++ [e])) q = lookupField (applyEvent s e) q := by
  have happ : ∀ (fr : List UpdateEvent) (s0 : Snapshot),
      applyEvents s0 (fr ++ [e]) = applyEvent (applyEvents s0 fr) e := by
    intro fr
    induction fr with
    | nil => intro s0; rfl
    | cons x rest ih =>
      intro s0
      rw [List.cons_append, applyEvents, applyEvents, ih]
  rw [happ front s]
  cases hb : lastBinding e.fields q with
  | some v =>
    rw [lookupField_applyEvent (applyEvents s front) e q, lookupField_applyEvent s e q, hb]
    exact mergeField_lookup_applyEvents front s q e.ts v hts
  | none =>
    rw [lookupField_applyEvent (applyEvents s front) e q, lookupField_applyEvent s e q, hb]
    apply lookupField_applyEvents_not_bound
    intro e2 he2
    cases hb2 : lastBinding e2.fields q with
    | none => rfl
    | some w =>
      exfalso
      have hmem := lastBinding_mem e2.fields q w hb2
      have hsome := hkeys e2 he2 (q, w) hmem
      rw [hb] at hsome
      simp at hsome

/-- The first nine events of a well-formed burst: non-decreasing timestamps,
each setting the same field as the final event. -/
def frontDemo : List UpdateEvent :=
  [UpdateEvent.mk "performance-agent" 1 [("latency_ms", 150)],
   UpdateEvent.mk "performance-agent" 2 [("latency_ms", 200)],
   UpdateEvent.mk "performance-agent" 3 [("latency_ms", 250)],
   UpdateEvent.mk "performance-agent" 4 [("latency_ms", 300)],
   UpdateEvent.mk "performance-agent" 5 [("latency_ms", 350)],
   UpdateEvent.mk "performance-agent" 6 [("latency_ms", 400)],
   UpdateEvent.mk "performance-agent" 7 [("latency_ms", 450)],
   UpdateEvent.mk "performance-agent" 8 [("latency_ms", 500)],
   UpdateEvent.mk "performance-agent" 9 [("latency_ms", 550)]]

/-- Witness for the amended C2 on the rapid-update test's burst shape: nine
monotone latency updates followed by the final one converge to the final
event's effect. -/
theorem burst_converges_to_last_event_witness :
    frontDemo.length = 9
    ∧ lookupField
        (applyEvents [("latency_ms", 0, 100)] (frontDemo ++ [burstDemoLast])) "latency_ms"
      = lookupField (applyEvent [("latency_ms", 0, 100)] burstDemoLast) "latency_ms" :=
  ⟨by decide,
   burst_converges_to_last_event [("latency_ms", 0, 100)] frontDemo burstDemoLast
     (by decide) (by decide) (by decide) "latency_ms"⟩

/-! ## Filter Predicate Engine (spec section 4.1)

Modelled from the spec: the Filter Predicate Engine is absent from the
sources (only the dashboard filtering integration tests exercise it).
Criteria are a closed tagged-variant form of the predicate groups: numeric
threshold triples, categorical equality filters, a time window and a
free-text query already tokenized into an OR-list of AND-groups; all groups
combine with AND and empty criteria match everything. -/

/-- Modelled from the spec: the numeric comparison operators. -/
inductive NumOp where
  | lt
  | le
  | gt
  | ge
  | eq
deriving Repr, DecidableEq

/-- Modelled from the spec: a numeric threshold predicate, failing closed on
an absent field unless explicitly marked ignore-if-absent. -/
structure NumericPred where
  field : String
  op : NumOp
  value : Rat
  ignoreIfAbsent : Bool
deriving Repr, DecidableEq

/-- Modelled from the spec: a categorical equality filter over a tag. -/
structure CatPred where
  field : String
  value : String
deriving Repr, DecidableEq

/-- Modelled from the spec: a resolved time window, inclusive of start and
exclusive of stop. -/
structure TimeWindow where
  start : Nat
  stop : Nat
deriving Repr, DecidableEq

/-- Modelled from the spec: one token of the free-text query, either a
field:value equality token or a bare case-insensitive substring token. -/
inductive TextToken where
  | fieldValue (field : String) (value : String)
  | bare (tok : String)
deriving Repr, DecidableEq

/-- Modelled from the spec: a composable criteria set; the text query is the
OR-list of its AND-groups (AND binds tighter than OR). -/
structure Criteria where
  numeric : List NumericPred
  categorical : List CatPred
  window : Option TimeWindow
  text : List (List TextToken)
deriving Repr, DecidableEq

/-- A record or agent snapshot as the engine sees it: searchable identity
fields, an observation timestamp, sparse numeric fields and categorical
tags. -/
structure AgentRecord where
  agent_id : String
  name : String
  agentType : String
  timestamp : Nat
  nums : List (String × Rat)
  tags : List (String × String)
deriving Repr, DecidableEq

/-- First value carried for a numeric field, none when the record does not
carry the field. -/
def lookupNum : List (String × Rat) → String → Option Rat
  | [], _ => none
  | (k, v) :: rest, f => if f = k then some v else lookupNum rest f

/-- First value carried for a categorical tag. -/
def lookupStr : List (String × String) → String → Option String
  | [], _ => none
  | (k, v) :: rest, f => if f = k then some v else lookupStr rest f

/-- Modelled from the spec: the five numeric comparison operators. -/
def evalOp : NumOp → Rat → Rat → Bool
  | NumOp.lt, x, v => decide (x < v)
  | NumOp.le, x, v => decide (x ≤ v)
  | NumOp.gt, x, v => decide (v < x)
  | NumOp.ge, x, v => decide (v ≤ x)
  | NumOp.eq, x, v => decide (x = v)

/-- Modelled from the spec: numeric predicate evaluation; an absent field
fails closed unless the predicate is marked ignore-if-absent. -/
def evalNumeric (r : AgentRecord) (p : NumericPred) : Bool :=
  match lookupNum r.nums p.field with
  | none => p.ignoreIfAbsent
  | some x => evalOp p.op x p.value

/-- Modelled from the spec: categorical equality is case-sensitive exact
match and an absent tag excludes the record. -/
def evalCat (r : AgentRecord) (p : CatPred) : Bool :=
  match lookupStr r.tags p.field with
  | none => false
  | some t => decide (t = p.value)

/-- Modelled from the spec: time-window evaluation, inclusive of start and
exclusive of stop. -/
def evalWindow (r : AgentRecord) (w : TimeWindow) : Bool :=
  decide (w.start ≤ r.timestamp) && decide (r.timestamp < w.stop)

/-- Character-list prefix test. -/
def charsPrefixed : List Char → List Char → Bool
  | [], _ => true
  | _ :: _, [] => false
  | a :: as, b :: bs => decide (a = b) && charsPrefixed as bs

/-- Character-list substring test. -/
def charsSubstr (needle : List Char) : List Char → Bool
  | [] => needle.isEmpty
  | b :: bs => charsPrefixed needle (b :: bs) || charsSubstr needle bs

/-- Case-insensitive substring match between two strings. -/
def lowerSubstr (needle hay : String) : Bool :=
  charsSubstr needle.toLower.toList hay.toLower.toList

/-- The string value a field:value token compares against: the searchable
identity fields or a tag. -/
def fieldString (r : AgentRecord) (f : String) : Option String :=
  if f = "agent_id" then some r.agent_id
  else if f = "type" then some r.agentType
  else if f = "name" then some r.name
  else lookupStr r.tags f

/-- Modelled from the spec: one text token matches a record either by field
equality or by case-insensitive substring over the searchable fields
(agent_id, type, name). -/
def tokenMatches (r : AgentRecord) : TextToken → Bool
  | TextToken.fieldValue f v =>
    match fieldString r f with
    | none => false
    | some s => decide (s = v)
  | TextToken.bare tok =>
    lowerSubstr tok r.agent_id || lowerSubstr tok r.agentType || lowerSubstr tok r.name

/-- Modelled from the spec: the text query matches when it is empty or some
AND-group matches entirely. -/
def textMatches (r : AgentRecord) : List (List TextToken) → Bool
  | [] => true
  | q₁ :: qs => (q₁ :: qs).any (fun clause => clause.all (tokenMatches r))

/-- Modelled from the spec: all predicate groups combine with AND. -/
def matchesCriteria (r : AgentRecord) (c : Criteria) : Bool :=
  c.numeric.all (evalNumeric r)
    && c.categorical.all (evalCat r)
    && (match c.window with
        | none => true
        | some w => evalWindow r w)
    && textMatches r c.text

/-- C9: criteria whose predicate groups are all empty match every record;
clearing all filters makes every known agent visible again. -/
theorem matches_empty_criteria (r : AgentRecord) (c : Criteria)
    (h1 : c.numeric = []) (h2 : c.categorical = []) (h3 : c.window = none) (h4 : c.text = []) :
    matchesCriteria r c = true := by
  simp [matchesCriteria, textMatches, h1, h2, h3, h4]

/-- Witness for C9: the cleared-filters criteria match a concrete agent
record. -/
theorem matches_empty_criteria_witness :
    matchesCriteria
      (AgentRecord.mk "fast-agent-1" "Fast Agent" "web" 100 [("latency_ms", 80)]
        [("environment", "production")])
      (Criteria.mk [] [] none []) = true :=
  matches_empty_criteria _ _ rfl rfl rfl rfl

/-- C4: a numeric predicate not marked ignore-if-absent fails closed on a
record that does not carry its field, and criteria containing such a
predicate exclude the record. -/
theorem numeric_absent_field_fails_closed (r : AgentRecord) (c : Criteria) (p : NumericPred)
    (hp : p ∈ c.numeric) (hig : p.ignoreIfAbsent = false)
    (habs : lookupNum r.nums p.field = none) :
    evalNumeric r p = false ∧ matchesCriteria r c = false := by
  have he : evalNumeric r p = false := by
    simp [evalNumeric, habs, hig]
  refine ⟨he, ?_⟩
  have hall : c.numeric.all (evalNumeric r) = false :=
    List.all_eq_false.mpr ⟨p, hp, by simp [he]⟩
  simp [matchesCriteria, hall]

/-- Witness for C4: a record without latency_ms is excluded by a
latency_ms < 500 filter. -/
theorem numeric_absent_field_fails_closed_witness :
    evalNumeric
        (AgentRecord.mk "agent-2" "Agent Two" "api" 100 [("cpu_usage_percent", 30)] [])
        (NumericPred.mk "latency_ms" NumOp.lt 500 false) = false
    ∧ matchesCriteria
        (AgentRecord.mk "agent-2" "Agent Two" "api" 100 [("cpu_usage_percent", 30)] [])
        (Criteria.mk [NumericPred.mk "latency_ms" NumOp.lt 500 false] [] none []) = false :=
  numeric_absent_field_fails_closed
    (AgentRecord.mk "agent-2" "Agent Two" "api" 100 [("cpu_usage_percent", 30)] [])
    (Criteria.mk [NumericPred.mk "latency_ms" NumOp.lt 500 false] [] none [])
    (NumericPred.mk "latency_ms" NumOp.lt 500 false)
    (by decide) rfl (by decide)

/-! ## Aggregation Engine (spec section 4.2) and the dashboard average

The per-group statistics of the Aggregation Engine are modelled from the
spec (the engine is absent from the sources); the Dashboard Avg Latency
computation is translated from the Dashboard component embedded in the
backend README. -/

/-- A metric record as the frontend api service declares it: sparse numeric
fields and an open custom_metrics mapping. -/
structure Metric where
  metric_id : String
  agent_id : String
  timestamp : Nat
  latency_ms : Option Rat
  throughput_req_per_min : Option Rat
  cost_per_request : Option Rat
  cpu_usage_percent : Option Rat
  gpu_usage_percent : Option Rat
  memory_usage_mb : Option Rat
  custom_metrics : List (String × Rat)
deriving Repr, DecidableEq

/-- JavaScript coalescing as used by the dashboard: a missing value becomes
zero. -/
def orZero : Option Rat → Rat
  | none => 0
  | some x => x

/-- The Dashboard Avg Latency card, translated from the Dashboard component:
it reduces latency_ms with a missing value coalesced to zero over all
fetched metrics and divides by the total record count, showing nothing when
there are no records. -/
def dashboardAvgLatency (ms : List Metric) : Option Rat :=
  if ms.length = 0 then none
  else some ((ms.foldl (fun acc m => acc + orZero m.latency_ms) 0) / (ms.length : Rat))

/-- The values a numeric field takes over the records of a group that carry
it. -/
def fieldValues (f : Metric → Option Rat) (ms : List Metric) : List Rat :=
  ms.filterMap f

/-- Modelled from the spec: the null-safe per-group mean of a numeric field,
computed over only the records where the field is non-null. -/
def fieldMean (f : Metric → Option Rat) (ms : List Metric) : Option Rat :=
  if (fieldValues f ms).length = 0 then none
  else some ((fieldValues f ms).sum / ((fieldValues f ms).length : Rat))

/-- Minimum of a list of rationals. -/
def listMinQ : List Rat → Option Rat
  | [] => none
  | x :: xs =>
    match listMinQ xs with
    | none => some x
    | some y => some (min x y)

/-- Maximum of a list of rationals. -/
def listMaxQ : List Rat → Option Rat
  | [] => none
  | x :: xs =>
    match listMaxQ xs with
    | none => some x
    | some y => some (max x y)

/-- Modelled from the spec: the null-safe per-group minimum of a numeric
field. -/
def fieldMin (f : Metric → Option Rat) (ms : List Metric) : Option Rat :=
  listMinQ (fieldValues f ms)

/-- Modelled from the spec: the null-safe per-group maximum of a numeric
field. -/
def fieldMax (f : Metric → Option Rat) (ms : List Metric) : Option Rat :=
  listMaxQ (fieldValues f ms)

/-- The group's total count: every record of the group, whether or not it
carries any particular field. -/
def groupCount (ms : List Metric) : Nat := ms.length

/-- Modelled from the spec: aggregate with groupBy agent, one group per
distinct agent_id among the records; per-field statistics of a group are
taken by fieldMean, fieldMin and fieldMax, the total by groupCount. -/
def aggregateByAgent (ms : List Metric) : List (String × List Metric) :=
  ((ms.map Metric.agent_id).dedup).map
    (fun a => (a, ms.filter (fun m => m.agent_id == a)))

/-- A record carrying a latency observation. -/
def metricWithLatency : Metric :=
  Metric.mk "m1" "agent-1" 1 (some 100) none none none none none []

/-- A record of the same group carrying no latency observation. -/
def metricNoLatency : Metric :=
  Metric.mk "m2" "agent-1" 2 none none none (some 40) none none []

/-- Counterexample to C5 as stated against the repository's only average
computation: over a two-record group where the second record misses
latency_ms, the Dashboard Avg Latency is 50 — the missing record
contributed as zero to the mean and to the denominator — while the
null-safe mean over only the records carrying the field is 100. -/
theorem dashboard_avg_counts_missing_as_zero :
    dashboardAvgLatency [metricWithLatency, metricNoLatency] = some 50
    ∧ fieldMean Metric.latency_ms [metricWithLatency, metricNoLatency] = some 100
    ∧ dashboardAvgLatency [metricWithLatency, metricNoLatency]
        ≠ fieldMean Metric.latency_ms [metricWithLatency, metricNoLatency] := by
  have h1 : dashboardAvgLatency [metricWithLatency, metricNoLatency] = some 50 := by
    simp [dashboardAvgLatency, metricWithLatency, metricNoLatency, orZero]
    norm_num
  have h2 : fieldMean Metric.latency_ms [metricWithLatency, metricNoLatency] = some 100 := by
    simp [fieldMean, fieldValues, metricWithLatency, metricNoLatency]
  refine ⟨h1, h2, ?_⟩
  rw [h1, h2]
  intro hcontra
  rw [Option.some.injEq] at hcontra
  exact absurd hcontra (by norm_num)

/-- C5 amended: in the spec-modelled Aggregation Engine a record missing a
numeric field contributes to the group's total count but leaves that field's
mean, minimum and maximum unchanged (it does not contribute as zero);
the repository's in-source Dashboard Avg Latency computation, by contrast,
is the non-null-safe average refuted above. -/
theorem aggregate_null_safe (g : List Metric) (m : Metric) (f : Metric → Option Rat)
    (h : f m = none) :
    fieldMean f (g ++ [m]) = fieldMean f g
    ∧ fieldMin f (g ++ [m]) = fieldMin f g
    ∧ fieldMax f (g ++ [m]) = fieldMax f g
    ∧ groupCount (g ++ [m]) = groupCount g + 1 := by
  have hfv : fieldValues f (g ++ [m]) = fieldValues f g := by
    simp [fieldValues, List.filterMap_append, h]
  exact ⟨by simp [fieldMean, hfv], by simp [fieldMin, hfv], by simp [fieldMax, hfv],
    by simp [groupCount]⟩

/-- Witness for the amended C5: appending the latency-free record to the
one-record group leaves the latency statistics unchanged and increments the
group count. -/
theorem aggregate_null_safe_witness :
    fieldMean Metric.latency_ms ([metricWithLatency] ++ [metricNoLatency])
      = fieldMean Metric.latency_ms [metricWithLatency]
    ∧ fieldMin Metric.latency_ms ([metricWithLatency] ++ [metricNoLatency])
      = fieldMin Metric.latency_ms [metricWithLatency]
    ∧ fieldMax Metric.latency_ms ([metricWithLatency] ++ [metricNoLatency])
      = fieldMax Metric.latency_ms [metricWithLatency]
    ∧ groupCount ([metricWithLatency] ++ [metricNoLatency])
      = groupCount [metricWithLatency] + 1 :=
  aggregate_null_safe [metricWithLatency] metricNoLatency Metric.latency_ms rfl

/-! ## Ingestion: submitMetric and the store constraints

The collection endpoint itself is absent from the sources; its validation is
modelled from the spec's section 3 invariants together with the CHECK
constraints of the performance_metrics table in the database schema, which
is part of the sources and is the layer that ultimately accepts or refuses a
row.  The store is append-only: a submission either extends the record list
or leaves it untouched, and existing records are never rewritten. -/

/-- A metric submission as the collection endpoint receives it. -/
structure Submission where
  agent_id : String
  timestamp : Nat
  latency_ms : Option Rat
  throughput_req_per_min : Option Rat
  cost_per_request : Option Rat
  cpu_usage_percent : Option Rat
  gpu_usage_percent : Option Rat
  memory_usage_mb : Option Rat
  custom_metrics : List (String × Rat)
deriving Repr, DecidableEq

/-- Section 3 invariant: at least one metric field or custom_metrics entry
present (schema constraint performance_metrics_at_least_one_metric). -/
def hasAnyMetric (s : Submission) : Bool :=
  s.latency_ms.isSome || s.throughput_req_per_min.isSome || s.cost_per_request.isSome
    || s.cpu_usage_percent.isSome || s.gpu_usage_percent.isSome || s.memory_usage_mb.isSome
    || !s.custom_metrics.isEmpty

/-- Section 3 invariant: a percentage, when present, lies within zero to one
hundred (schema constraints performance_metrics_cpu_percent_valid and
performance_metrics_gpu_percent_valid). -/
def pctOk : Option Rat → Bool
  | none => true
  | some x => decide (0 ≤ x) && decide (x ≤ 100)

/-- Schema constraints performance_metrics_latency_positive and
performance_metrics_memory_positive: the value, when present, is strictly
positive. -/
def posOk : Option Rat → Bool
  | none => true
  | some x => decide (0 < x)

/-- The section 3 invariants of a submission relative to the ingestion
time. -/
def invariantOk (now : Nat) (s : Submission) : Bool :=
  hasAnyMetric s && pctOk s.cpu_usage_percent && pctOk s.gpu_usage_percent
    && decide (s.timestamp ≤ now)

/-- Modelled from the spec and schema: the first violated constraint's
reason, none when the submission passes every check. -/
def validationError (now : Nat) (s : Submission) : Option String :=
  if hasAnyMetric s = false then
    some "at least one metric field or custom_metrics entry must be present"
  else if pctOk s.cpu_usage_percent = false then
    some "cpu_usage_percent must be within 0 and 100"
  else if pctOk s.gpu_usage_percent = false then
    some "gpu_usage_percent must be within 0 and 100"
  else if decide (now < s.timestamp) = true then
    some "timestamp must not be after ingestion time"
  else if posOk s.latency_ms = false then
    some "latency_ms must be positive"
  else if posOk s.memory_usage_mb = false then
    some "memory_usage_mb must be positive"
  else
    none

/-- Outcome of a submission: an accepted record's generated id or the
rejection reason. -/
inductive SubmitOutcome where
  | accepted (metric_id : Nat)
  | rejected (reason : String)
deriving Repr, DecidableEq

/-- Modelled from the spec: submitMetric validates before persisting and
appends the record to the append-only store only when every check passes. -/
def submitMetric (store : List Submission) (now : Nat) (s : Submission) :
    SubmitOutcome × List Submission :=
  match validationError now s with
  | some reason => (SubmitOutcome.rejected reason, store)
  | none => (SubmitOutcome.accepted store.length, store ++ [s])

theorem validationError_none (now : Nat) (s : Submission)
    (h : validationError now s = none) :
    hasAnyMetric s = true ∧ pctOk s.cpu_usage_percent = true
      ∧ pctOk s.gpu_usage_percent = true ∧ s.timestamp ≤ now
      ∧ posOk s.latency_ms = true ∧ posOk s.memory_usage_mb = true := by
  unfold validationError at h
  split_ifs at h with h1 h2 h3 h4 h5 h6
  refine ⟨?_, ?_, ?_, ?_, ?_, ?_⟩
  · exact Bool.eq_true_of_not_eq_false h1
  · exact Bool.eq_true_of_not_eq_false h2
  · exact Bool.eq_true_of_not_eq_false h3
  · have := h4
    simp only [decide_eq_true_eq] at this
    omega
  · exact Bool.eq_true_of_not_eq_false h5
  · exact Bool.eq_true_of_not_eq_false h6

/-- C6: submitMetric validates the section 3 invariants before persisting.
First conjunct: a submission violating an invariant is rejected with a
reason and the store is unchanged, so a violating record is never
persisted.  Second conjunct: every record of the store after a submission
was already stored or passed all checks.  Third conjunct: the outcome is
always an acceptance or a rejection carrying a reason. -/
theorem submitMetric_validates (store : List Submission) (now : Nat) (s : Submission) :
    (invariantOk now s = false →
      (∃ reason, (submitMetric store now s).1 = SubmitOutcome.rejected reason)
        ∧ (submitMetric store now s).2 = store)
    ∧ (∀ r ∈ (submitMetric store now s).2, r ∈ store ∨ invariantOk now r = true)
    ∧ ((submitMetric store now s).1 = SubmitOutcome.accepted store.length
        ∨ ∃ reason, (submitMetric store now s).1 = SubmitOutcome.rejected reason) := by
  refine ⟨?_, ?_, ?_⟩
  · intro hviol
    cases hv : validationError now s with
    | some reason => simp [submitMetric, hv]
    | none =>
      exfalso
      obtain ⟨ha, hc, hg, ht, -, -⟩ := validationError_none now s hv
      rw [invariantOk, ha, hc, hg] at hviol
      simp [ht] at hviol
  · intro r hr
    cases hv : validationError now s with
    | some reason =>
      rw [submitMetric] at hr
      simp only [hv] at hr
      exact Or.inl hr
    | none =>
      rw [submitMetric] at hr
      simp only [hv] at hr
      rcases List.mem_append.mp hr with hold | hnew
      · exact Or.inl hold
      · obtain ⟨ha, hc, hg, ht, -, -⟩ := validationError_none now s hv
        rw [List.mem_singleton.mp hnew]
        right
        rw [invariantOk, ha, hc, hg]
        simp [ht]
  · cases hv : validationError now s with
    | some reason => exact Or.inr ⟨reason, by simp [submitMetric, hv]⟩
    | none => exact Or.inl (by simp [submitMetric, hv])

/-- Witness for C6: a submission with no metric field at all is rejected
with a reason and nothing is persisted. -/
theorem submitMetric_validates_witness :
    (∃ reason,
        (submitMetric [] 100 (Submission.mk "agent-1" 50 none none none none none none [])).1
          = SubmitOutcome.rejected reason)
    ∧ (submitMetric [] 100 (Submission.mk "agent-1" 50 none none none none none none [])).2
        = [] :=
  (submitMetric_validates [] 100 (Submission.mk "agent-1" 50 none none none none none none [])).1
    (by decide)

/-- Replay a sequence of submissions, each with its ingestion time, against
the append-only store. -/
def runSubmissions (store : List Submission) : List (Nat × Submission) → List Submission
  | [] => store
  | (now, s) :: rest => runSubmissions (submitMetric store now s).2 rest

/-- Strict positivity over a whole store: every stored record has positive
latency_ms and memory_usage_mb when they are present. -/
def storeOk (store : List Submission) : Bool :=
  store.all (fun r => posOk r.latency_ms && posOk r.memory_usage_mb)

theorem storeOk_submit (store : List Submission) (now : Nat) (s : Submission)
    (h : storeOk store = true) : storeOk (submitMetric store now s).2 = true := by
  cases hv : validationError now s with
  | some reason => simpa [submitMetric, hv] using h
  | none =>
    obtain ⟨-, -, -, -, hl, hm⟩ := validationError_none now s hv
    rw [submitMetric]
    simp only [hv]
    rw [storeOk, List.all_append]
    rw [storeOk] at h
    simp [h, hl, hm]

/-- C10: the schema's strict positivity constraints hold of everything the
store accepts.  First conjunct: a submission carrying latency_ms = 0 or
memory_usage_mb = 0 is rejected and not persisted.  Second conjunct: since
records are only ever appended and never mutated, a store of records
satisfying strict positivity still satisfies it after any sequence of
submissions. -/
theorem stored_records_strictly_positive (store : List Submission) (now : Nat) (s : Submission)
    (subs : List (Nat × Submission)) :
    ((s.latency_ms = some 0 ∨ s.memory_usage_mb = some 0) →
      (∃ reason, (submitMetric store now s).1 = SubmitOutcome.rejected reason)
        ∧ (submitMetric store now s).2 = store)
    ∧ (storeOk store = true → storeOk (runSubmissions store subs) = true) := by
  constructor
  · intro hzero
    cases hv : validationError now s with
    | some reason => simp [submitMetric, hv]
    | none =>
      exfalso
      obtain ⟨-, -, -, -, hl, hm⟩ := validationError_none now s hv
      rcases hzero with hz | hz
      · rw [hz] at hl
        simp [posOk] at hl
      · rw [hz] at hm
        simp [posOk] at hm
  · intro hok
    induction subs generalizing store with
    | nil => exact hok
    | cons p rest ih =>
      obtain ⟨n, sub⟩ := p
      exact ih _ (storeOk_submit store n sub hok)

/-- Witness for C10: a submission with zero latency is rejected and a
well-formed store stays strictly positive across a concrete submission
sequence. -/
theorem stored_records_strictly_positive_witness :
    ((∃ reason,
        (submitMetric [] 100
            (Submission.mk "agent-1" 50 (some 0) none none none none none [])).1
          = SubmitOutcome.rejected reason)
      ∧ (submitMetric [] 100
            (Submission.mk "agent-1" 50 (some 0) none none none none none [])).2
          = [])
    ∧ (storeOk (runSubmissions []
        [(100, Submission.mk "agent-1" 50 (some 80) none none none none (some 512) []),
         (200, Submission.mk "agent-1" 150 (some 0) none none none none none [])]) = true) :=
  ⟨(stored_records_strictly_positive [] 100
      (Submission.mk "agent-1" 50 (some 0) none none none none none []) []).1
     (Or.inl rfl),
   (stored_records_strictly_positive [] 100
      (Submission.mk "agent-1" 50 (some 0) none none none none none [])
      [(100, Submission.mk "agent-1" 50 (some 80) none none none none (some 512) []),
       (200, Submission.mk "agent-1" 150 (some 0) none none none none none [])]).2
     (by decide)⟩

/-! ## Export facade: CSV formatting (spec section 6)

Modelled from the spec: the export endpoint is absent from the sources (the
frontend api service only downloads its byte stream), so the CSV layout is
modelled from the export contract: a fixed header, then one row per record
with timestamp, agent_id, the six numeric fields in the canonical section 3
order, and custom_metrics serialized as a JSON blob in the final column. -/

/-- An optional numeric cell: empty for a missing field. -/
def optCell : Option Rat → String
  | none => ""
  | some x => toString x

/-- Serialization of the custom_metrics mapping as a JSON object blob. -/
def customJson (kvs : List (String × Rat)) : String :=
  "\x7b"
    ++ String.intercalate ","
        (kvs.map (fun kv => "\x22" ++ kv.1 ++ "\x22:" ++ toString kv.2))
    ++ "\x7d"

/-- Modelled from the spec: the fixed CSV column order. -/
def csvHeader : List String :=
  ["timestamp", "agent_id", "latency_ms", "throughput_req_per_min", "cost_per_request",
   "cpu_usage_percent", "gpu_usage_percent", "memory_usage_mb", "custom_metrics"]

/-- Modelled from the spec: the cells of one record's CSV row, in the fixed
column order. -/
def csvRow (m : Metric) : List String :=
  [toString m.timestamp, m.agent_id, optCell m.latency_ms, optCell m.throughput_req_per_min,
   optCell m.cost_per_request, optCell m.cpu_usage_percent, optCell m.gpu_usage_percent,
   optCell m.memory_usage_mb, customJson m.custom_metrics]

/-- Modelled from the spec: the CSV export as rows of cells, header first. -/
def exportCsvCells (ms : List Metric) : List (List String) :=
  csvHeader :: ms.map csvRow

/-- Modelled from the spec: the CSV export as comma-joined lines. -/
def exportCsvLines (ms : List Metric) : List String :=
  (exportCsvCells ms).map (String.intercalate ",")

/-- C7: CSV export of a 2-record set yields exactly three lines — the fixed
header and one row per record in input order — and every row has exactly
the header's nine columns: timestamp, agent_id, the six numeric fields in
canonical order, then the custom_metrics JSON blob. -/
theorem export_csv_two_records (m1 m2 : Metric) :
    (exportCsvLines [m1, m2]).length = 3
    ∧ exportCsvCells [m1, m2] = [csvHeader, csvRow m1, csvRow m2]
    ∧ csvHeader =
        ["timestamp", "agent_id", "latency_ms", "throughput_req_per_min", "cost_per_request",
         "cpu_usage_percent", "gpu_usage_percent", "memory_usage_mb", "custom_metrics"]
    ∧ (∀ row ∈ exportCsvCells [m1, m2], row.length = csvHeader.length) := by
  refine ⟨by simp [exportCsvLines, exportCsvCells], rfl, rfl, ?_⟩
  intro row hrow
  rcases List.mem_cons.mp hrow with h | h
  · rw [h]
  · simp only [exportCsvCells, List.map_cons, List.map_nil] at h
    rcases List.mem_cons.mp h with h2 | h2
    · rw [h2]
      rfl
    · rw [List.mem_singleton.mp h2]
      rfl

/-- Witness for C7 at the known 2-record set of the export scenario. -/
theorem export_csv_two_records_witness :
    (exportCsvLines [metricWithLatency, metricNoLatency]).length = 3
    ∧ (∀ row ∈ exportCsvCells [metricWithLatency, metricNoLatency],
        row.length = csvHeader.length) :=
  ⟨(export_csv_two_records metricWithLatency metricNoLatency).1,
   (export_csv_two_records metricWithLatency metricNoLatency).2.2.2⟩

/-! ## Frontend request helper (src/frontend/src/services/api.ts)

Translated from ApiService.request: a non-ok response throws an Error built
from the parsed body's message, falling back to the text HTTP status when
the message is falsy, and to the fixed text Unknown error when the body is
not JSON; an ok response resolves to its parsed body.  The thrown error is
a plain generic Error, there is no distinguished StoreUnavailableError
type. -/

/-- The body of a failed response as the handler distinguishes it. -/
inductive FailBody where
  | notJson
  | jsonNoMessage
  | jsonMessage (m : String)
deriving Repr, DecidableEq

/-- A fetch outcome: an ok response with its parsed record list, or a
failure with HTTP status and body. -/
inductive FetchOutcome where
  | ok (records : List Metric)
  | fail (status : Nat) (body : FailBody)
deriving Repr, DecidableEq

/-- Translated from ApiService.request: the message of the thrown Error for
a non-ok response. -/
def thrownMessage (status : Nat) : FailBody → String
  | FailBody.notJson => "Unknown error"
  | FailBody.jsonNoMessage => "HTTP " ++ toString status
  | FailBody.jsonMessage m => if m = "" then "HTTP " ++ toString status else m

/-- Translated from ApiService.request: an ok response resolves to its
records, any other response throws a generic error string. -/
def request : FetchOutcome → Except String (List Metric)
  | FetchOutcome.ok rs => Except.ok rs
  | FetchOutcome.fail status body => Except.error (thrownMessage status body)

/-- Counterexample to C8 as stated: the request helper throws a plain
generic error, not a distinguished StoreUnavailableError type — a store
unavailable failure (HTTP 503) and a client validation failure (HTTP 400)
carrying the same body message produce identical error values, so the
caller cannot tell the causes apart by the error's type. -/
theorem request_error_not_distinguished :
    request (FetchOutcome.fail 503 (FailBody.jsonMessage "boom"))
        = request (FetchOutcome.fail 400 (FailBody.jsonMessage "boom"))
    ∧ request (FetchOutcome.fail 503 (FailBody.jsonMessage "boom"))
        = Except.error "boom" := by
  refine ⟨?_, ?_⟩ <;> simp [request, thrownMessage]

/-- C8 amended: a failed response is always surfaced to the caller as a
thrown error and never swallowed into a result list, so an empty list can
only mean that the server returned zero matching records — but the thrown
failure is a generic error message, not a distinguished
StoreUnavailableError type. -/
theorem request_failures_surface (resp : FetchOutcome) (rs : List Metric) :
    (request resp = Except.ok rs → resp = FetchOutcome.ok rs)
    ∧ (∀ status body, ∃ msg,
        request (FetchOutcome.fail status body) = Except.error msg) := by
  constructor
  · intro h
    cases resp with
    | ok xs =>
      rw [request] at h
      injection h with h
      rw [h]
    | fail status body =>
      rw [request] at h
      exact absurd h (by simp)
  · intro status body
    exact ⟨thrownMessage status body, rfl⟩

/-- Witness for the amended C8: an ok response with an empty record list is
the only way request yields the empty list, and a concrete failure surfaces
as an error. -/
theorem request_failures_surface_witness :
    (FetchOutcome.ok ([] : List Metric) = FetchOutcome.ok [])
    ∧ (∃ msg, request (FetchOutcome.fail 503 FailBody.notJson) = Except.error msg) :=
  ⟨(request_failures_surface (FetchOutcome.ok []) []).1 rfl,
   (request_failures_surface (FetchOutcome.ok []) []).2 503 FailBody.notJson⟩

end SentinelAI
